import Mathlib

/-!
Verification of the DCC timer core of CommandStation-EX (src/DCCTimer.h).

The header contains the full body of `DCCTimer::updateMinimumFreeMemoryISR`
and the compile-time constant `CLOCK_CYCLES`, together with declarations of
the remaining `DCCTimer` and `ADCee` operations whose architecture-specific
bodies live outside the given source.  Code that is present in the header is
embedded directly; operations whose bodies are absent are modelled from the
specification and marked as such in their doc comments.
-/

namespace DCCTimer

/-- Embedding of `DCCTimer::updateMinimumFreeMemoryISR` (src/DCCTimer.h lines
74-79).  `freeMemory()` is an environment-supplied `int`, modelled as the
argument `freeMem : Int`; `extraBytes` is an `unsigned char` promoted to `int`
before the subtraction, modelled as a `Nat` cast into `Int`.  The C++ body is
`int spare = freeMemory()-extraBytes; if (spare < 0) spare = 0;
if (spare < minimum_free_memory) minimum_free_memory = spare;`. -/
def updateMinimumFreeMemoryISR (freeMem : Int) (extraBytes : Nat)
    (minimum_free_memory : Int) : Int :=
  let spare0 : Int := freeMem - (extraBytes : Int)
  let spare : Int := if spare0 < 0 then 0 else spare0
  if spare < minimum_free_memory then spare else minimum_free_memory

/-- Modelled from the spec: `minimum_free_memory` is "initialized to a large
sentinel at start-up" and restored to it by `reset()`; the initializer itself
is not part of src/DCCTimer.h.  We use the largest 16-bit AVR `int`. -/
def initial_sentinel : Int := 32767

/-- A sequence of ISR invocations: each list entry carries the value returned
by `freeMemory()` at that call together with the `extraBytes` argument. -/
def runUpdates (m : Int) : List (Int × Nat) → Int
  | [] => m
  | p :: rest => runUpdates (updateMinimumFreeMemoryISR p.1 p.2 m) rest

/-- Embedding of the 58 µs half-cycle constant `DCC_SIGNAL_TIME`
(src/DCCTimer.h line 87). -/
def DCC_SIGNAL_TIME : Nat := 58

/-- Embedding of `DCCTimer::CLOCK_CYCLES` for the generic branch
(src/DCCTimer.h line 91): `(F_CPU / 1000000 * DCC_SIGNAL_TIME) >> 1`,
parameterised by the build-time `F_CPU` value.  All quantities involved are
non-negative, so `Nat` faithfully models the C++ `long` arithmetic. -/
def CLOCK_CYCLES (f_cpu : Nat) : Nat :=
  (f_cpu / 1000000 * DCC_SIGNAL_TIME) >>> 1

/-- Embedding of `DCCTimer::CLOCK_CYCLES` for the STM32 branch
(src/DCCTimer.h line 89): `(100000000L / 1000000 * DCC_SIGNAL_TIME) >> 1`. -/
def CLOCK_CYCLES_STM32 : Nat :=
  (100000000 / 1000000 * DCC_SIGNAL_TIME) >>> 1

/-- The platform's timer ticks per microsecond, as the spec names the
quantity `F_CPU / 1000000` substituted at build time. -/
def ticksPerMicrosecond (f_cpu : Nat) : Nat := f_cpu / 1000000

/-- Modelled from the spec: the state of the WaveformClock singleton beyond
the watermark.  The bodies of `reset()` and `getMinimumFreeMemory()` and the
storage of the `begin` callback are architecture-specific and not in
src/DCCTimer.h; the spec says `reset()` "re-initializes the memory watermark
only, not the timer configuration".  The callback is modelled by an abstract
identifier and the timer arming by a flag. -/
structure WaveformClockState where
  minimum_free_memory : Int
  interrupt_callback : Option Nat
  timer_armed : Bool

/-- Modelled from the spec: `reset()` "resets `minimumFreeMemory` to its
initial sentinel without touching timer configuration". -/
def reset (st : WaveformClockState) : WaveformClockState :=
  { st with minimum_free_memory := initial_sentinel }

/-- Modelled from the spec: `getMinimumFreeMemory()` is a
"non-interrupt-context read of the watermark; no mutation". -/
def getMinimumFreeMemory (st : WaveformClockState) : Int :=
  st.minimum_free_memory

/-- Modelled from the spec: `isPWMPin` "must be a static, architecture-derived
table lookup (no side effects)".  The architecture's table of PWM-capable pins
(not part of src/DCCTimer.h) is a parameter. -/
def isPWMPin (pwmTable : List Nat) (pin : Nat) : Bool :=
  pwmTable.contains pin

/-- Modelled from the spec: the hardware-PWM rendering state.  `nextDuty` is
the duty-cycle value latched for the NEXT interrupt cycle, `currentDuty` the
value being rendered during the current cycle, both in percent per pin. -/
structure PWMState where
  nextDuty : Nat → Nat
  currentDuty : Nat → Nat

/-- Modelled from the spec: `setPWM(pin, high)` "schedules the next interrupt
cycle's duty cycle to 0% (low) or 100% (high), rather than toggling the pin
immediately"; calling it on a non-PWM pin is a contract violation, modelled as
a no-op.  The body is architecture-specific and not in src/DCCTimer.h. -/
def setPWM (pwmTable : List Nat) (pin : Nat) (high : Bool) (st : PWMState) :
    PWMState :=
  if isPWMPin pwmTable pin then
    { st with
      nextDuty := fun q => if q = pin then (if high then 100 else 0) else st.nextDuty q }
  else st

/-- Modelled from the spec: at each timer tick the latched duty value becomes
the rendered one for the following cycle. -/
def tick (st : PWMState) : PWMState :=
  { nextDuty := st.nextDuty, currentDuty := st.nextDuty }

/-- Modelled from the spec: `getSimulatedMacAddress` "fills a 6-byte buffer
deterministically from platform-unique data" (e.g. the chip serial); the
architecture-specific body is not in src/DCCTimer.h.  The hardware-unique
source is the parameter `chipSerial`, fixed for a boot session. -/
def getSimulatedMacAddress (chipSerial : Nat) : List Nat :=
  (List.range 6).map fun i => (chipSerial >>> (8 * i)) % 256

end DCCTimer

namespace ADCee

/-- State of the `ADCee` analog sampler.  `usedpins` embeds the `uint16_t`
bitset declared at src/DCCTimer.h line 107 (an unsigned 16-bit value, hence
kept below 2^16); the remaining fields are modelled from the spec:
`analogvals` is the per-pin cache of latest samples, `inProgress` the
conversion-in-progress marker of the background scan, and `configCount`
counts how often the one-time ADC configuration side effects ran. -/
structure ADCState where
  usedpins : Nat
  analogvals : Nat → Int
  inProgress : Option Nat
  configCount : Nat

/-- Modelled from the spec: `init(pin)` "registers pin for sampling,
performing any architecture-specific one-time ADC configuration" and
"returns the first available raw reading"; "re-initializing a pin already
registered is a no-op or returns the current cached value".  The body is not
in src/DCCTimer.h.  `raw` is the environment-supplied first raw reading; the
mask update is reduced modulo 2^16 as the `uint16_t` store does. -/
def init (raw : Int) (pin : Nat) (st : ADCState) : Int × ADCState :=
  if st.usedpins.testBit pin then
    (st.analogvals pin, st)
  else
    (raw,
     { usedpins := (st.usedpins ||| (1 <<< pin)) % 65536
       analogvals := fun q => if q = pin then raw else st.analogvals q
       inProgress := st.inProgress
       configCount := st.configCount + 1 })

/-- Modelled from the spec: `scan()` "advances the ADC through the set of
registered pins, issuing one conversion at a time and writing the result into
values".  The body is not in src/DCCTimer.h; `env` supplies the conversion
result per pin. -/
def scan (env : Nat → Int) (st : ADCState) : ADCState :=
  match st.inProgress with
  | some p =>
      { st with
        analogvals := fun q => if q = p then env p else st.analogvals q
        inProgress := none }
  | none =>
      match (List.range 16).filter (fun p => st.usedpins.testBit p) with
      | [] => st
      | p :: _ => { st with inProgress := some p }

/-- Modelled from the spec: `read(pin, fromISR)` "returns the most recently
cached sample"; with `fromISR = true` it is "guaranteed not to block or
trigger a new conversion"; outside interrupt context it "may trigger the
background scan to make progress".  The body is not in src/DCCTimer.h. -/
def read (env : Nat → Int) (pin : Nat) (fromISR : Bool) (st : ADCState) :
    Int × ADCState :=
  if fromISR then (st.analogvals pin, st)
  else (st.analogvals pin, scan env st)

/-- Number of set bits of a natural number: the number of pins registered in
the `usedpins` bitset. -/
def countPins : Nat → Nat
  | 0 => 0
  | n + 1 => (n + 1) % 2 + countPins ((n + 1) / 2)

end ADCee

namespace DCCTimer

lemma updateMinimumFreeMemoryISR_le (f : Int) (e : Nat) (m : Int) :
    updateMinimumFreeMemoryISR f e m ≤ m := by
  simp only [updateMinimumFreeMemoryISR]
  split_ifs <;> omega

lemma updateMinimumFreeMemoryISR_nonneg (f : Int) (e : Nat) (m : Int)
    (hm : 0 ≤ m) : 0 ≤ updateMinimumFreeMemoryISR f e m := by
  simp only [updateMinimumFreeMemoryISR]
  split_ifs <;> omega

lemma runUpdates_le (l : List (Int × Nat)) : ∀ m : Int, runUpdates m l ≤ m := by
  induction l with
  | nil => intro m; simp [runUpdates]
  | cons p rest ih =>
      intro m
      calc runUpdates (updateMinimumFreeMemoryISR p.1 p.2 m) rest
          ≤ updateMinimumFreeMemoryISR p.1 p.2 m := ih _
        _ ≤ m := updateMinimumFreeMemoryISR_le _ _ _

lemma runUpdates_nonneg (l : List (Int × Nat)) :
    ∀ m : Int, 0 ≤ m → 0 ≤ runUpdates m l := by
  induction l with
  | nil => intro m hm; simpa [runUpdates] using hm
  | cons p rest ih =>
      intro m hm
      exact ih _ (updateMinimumFreeMemoryISR_nonneg _ _ _ hm)

lemma runUpdates_append (l₁ l₂ : List (Int × Nat)) :
    ∀ m : Int, runUpdates m (l₁ ++ l₂) = runUpdates (runUpdates m l₁) l₂ := by
  induction l₁ with
  | nil => intro m; simp [runUpdates]
  | cons p rest ih => intro m; simp [runUpdates, ih]

end DCCTimer

/-- C1: starting from the sentinel (as after a reset), the watermark computed
by any sequence of `updateMinimumFreeMemoryISR` calls never increases as the
sequence is extended — extending a run `l₁` by further calls `l₂` can only
lower the value — and at every point of the run, in particular after at least
one call, it is non-negative. -/
theorem DCCTimer.minimum_free_memory_monotone_nonneg (l₁ l₂ : List (Int × Nat)) :
    DCCTimer.runUpdates DCCTimer.initial_sentinel (l₁ ++ l₂) ≤
      DCCTimer.runUpdates DCCTimer.initial_sentinel l₁ ∧
    0 ≤ DCCTimer.runUpdates DCCTimer.initial_sentinel l₁ := by
  constructor
  · rw [DCCTimer.runUpdates_append]
    exact DCCTimer.runUpdates_le l₂ _
  · exact DCCTimer.runUpdates_nonneg l₁ _ (by simp [DCCTimer.initial_sentinel])

/-- C2: one call to `updateMinimumFreeMemoryISR` with `freeMemory() = f`,
`extraBytes = e ≤ 255` and prior watermark `m` leaves the watermark equal to
`min m (max 0 (f - e))`. -/
theorem DCCTimer.updateMinimumFreeMemoryISR_eq_min_max (f m : Int) (e : Nat)
    (he : e ≤ 255) :
    DCCTimer.updateMinimumFreeMemoryISR f e m = min m (max 0 (f - (e : Int))) := by
  simp only [DCCTimer.updateMinimumFreeMemoryISR]
  rcases le_or_lt 0 (f - (e : Int)) with h | h
  · rw [max_eq_right h]
    split_ifs <;> omega
  · rw [max_eq_left h.le]
    split_ifs <;> omega

/-- Witness for C2 at `f = 100`, `e = 3`, `m = 50`. -/
theorem DCCTimer.updateMinimumFreeMemoryISR_eq_min_max_witness :
    DCCTimer.updateMinimumFreeMemoryISR 100 3 50 = min 50 (max 0 (100 - ((3 : Nat) : Int))) :=
  DCCTimer.updateMinimumFreeMemoryISR_eq_min_max 100 50 3 (by decide)

/-- C3: on every architecture the build-time constant `CLOCK_CYCLES` equals
`ticksPerMicrosecond * 58 / 2` in truncating integer arithmetic — the
right-shift by one in the source equals truncating division by two on these
non-negative quantities — both in the generic `F_CPU` branch and in the
hard-coded 100 MHz STM32 branch. -/
theorem DCCTimer.CLOCK_CYCLES_eq (f_cpu : Nat) :
    DCCTimer.CLOCK_CYCLES f_cpu = DCCTimer.ticksPerMicrosecond f_cpu * 58 / 2 ∧
    DCCTimer.CLOCK_CYCLES_STM32 = DCCTimer.ticksPerMicrosecond 100000000 * 58 / 2 := by
  constructor
  · simp [DCCTimer.CLOCK_CYCLES, DCCTimer.ticksPerMicrosecond,
      DCCTimer.DCC_SIGNAL_TIME, Nat.shiftRight_eq_div_pow]
  · simp [DCCTimer.CLOCK_CYCLES_STM32, DCCTimer.ticksPerMicrosecond,
      DCCTimer.DCC_SIGNAL_TIME, Nat.shiftRight_eq_div_pow]

/-- C4: after `reset()`, `getMinimumFreeMemory()` returns the initial
sentinel regardless of the prior watermark, and `reset()` leaves every other
component of the WaveformClock state — the stored interrupt callback and the
timer configuration — unchanged. -/
theorem DCCTimer.reset_frame (st : DCCTimer.WaveformClockState) :
    DCCTimer.getMinimumFreeMemory (DCCTimer.reset st) = DCCTimer.initial_sentinel ∧
    (DCCTimer.reset st).interrupt_callback = st.interrupt_callback ∧
    (DCCTimer.reset st).timer_armed = st.timer_armed :=
  ⟨rfl, rfl, rfl⟩

/-- C5: for a PWM-capable pin, `setPWM(p, true)` followed by `setPWM(p, false)`
before the next tick yields a rendered duty cycle of 0% at the following tick
(the last write within a cycle wins), and neither call changes the duty
rendered during the current cycle. -/
theorem DCCTimer.setPWM_last_write_wins (pwmTable : List Nat) (p : Nat)
    (st : DCCTimer.PWMState) (h : DCCTimer.isPWMPin pwmTable p = true) :
    (DCCTimer.tick (DCCTimer.setPWM pwmTable p false
        (DCCTimer.setPWM pwmTable p true st))).currentDuty p = 0 ∧
    (DCCTimer.setPWM pwmTable p true st).currentDuty p = st.currentDuty p ∧
    (DCCTimer.setPWM pwmTable p false st).currentDuty p = st.currentDuty p := by
  refine ⟨?_, ?_, ?_⟩ <;> simp [DCCTimer.tick, DCCTimer.setPWM, h]

/-- Witness for C5 with PWM table `[11, 12]`, pin `11`, and a state whose
current duty is 99%. -/
theorem DCCTimer.setPWM_last_write_wins_witness :
    DCCTimer.isPWMPin [11, 12] 11 = true ∧
    ((DCCTimer.tick (DCCTimer.setPWM [11, 12] 11 false
        (DCCTimer.setPWM [11, 12] 11 true
          (DCCTimer.PWMState.mk (fun _ => 0) (fun _ => 99))))).currentDuty 11 = 0 ∧
     (DCCTimer.setPWM [11, 12] 11 true
        (DCCTimer.PWMState.mk (fun _ => 0) (fun _ => 99))).currentDuty 11 =
          (DCCTimer.PWMState.mk (fun _ => 0) (fun _ => 99)).currentDuty 11 ∧
     (DCCTimer.setPWM [11, 12] 11 false
        (DCCTimer.PWMState.mk (fun _ => 0) (fun _ => 99))).currentDuty 11 =
          (DCCTimer.PWMState.mk (fun _ => 0) (fun _ => 99)).currentDuty 11) :=
  ⟨by decide, DCCTimer.setPWM_last_write_wins [11, 12] 11 _ (by decide)⟩

/-- C8: the simulated MAC address always consists of exactly 6 bytes, each
below 256, and two calls within the same boot session (same hardware-unique
source) produce identical bytes. -/
theorem DCCTimer.getSimulatedMacAddress_deterministic (chipSerial : Nat) :
    (DCCTimer.getSimulatedMacAddress chipSerial).length = 6 ∧
    ((DCCTimer.getSimulatedMacAddress chipSerial).all fun b => b < 256) = true ∧
    DCCTimer.getSimulatedMacAddress chipSerial =
      DCCTimer.getSimulatedMacAddress chipSerial := by
  refine ⟨by simp [DCCTimer.getSimulatedMacAddress], ?_, rfl⟩
  simp only [DCCTimer.getSimulatedMacAddress, List.all_eq_true, List.mem_map]
  rintro b ⟨i, -, rfl⟩
  simpa using Nat.mod_lt _ (by norm_num)

/-- C9: a second consecutive call that observes the same `freeMemory()` value
and passes the same `extraBytes` leaves the watermark exactly as the first
call left it — the strict comparison never rewrites an equal value. -/
theorem DCCTimer.updateMinimumFreeMemoryISR_idem (f m : Int) (e : Nat) :
    DCCTimer.updateMinimumFreeMemoryISR f e (DCCTimer.updateMinimumFreeMemoryISR f e m) =
      DCCTimer.updateMinimumFreeMemoryISR f e m := by
  simp only [DCCTimer.updateMinimumFreeMemoryISR]
  split_ifs <;> omega

lemma ADCee.init_usedpins_lt (raw : Int) (pin : Nat) (st : ADCee.ADCState)
    (h : st.usedpins < 65536) : (ADCee.init raw pin st).2.usedpins < 65536 := by
  simp only [ADCee.init]
  split_ifs with hbit
  · simpa using h
  · simpa using Nat.mod_lt _ (by norm_num)

lemma ADCee.init_testBit (raw : Int) (pin : Nat) (st : ADCee.ADCState)
    (hpin : pin < 16) (h : st.usedpins < 65536) :
    (ADCee.init raw pin st).2.usedpins.testBit pin = true := by
  have h16 : (65536 : Nat) = 2 ^ 16 := by norm_num
  simp only [ADCee.init]
  split_ifs with hbit
  · simpa using hbit
  · have hshift : (1 <<< pin : Nat) < 2 ^ 16 := by
      rw [Nat.shiftLeft_eq, one_mul]
      exact Nat.pow_lt_pow_right (by norm_num) hpin
    have hor : (st.usedpins ||| (1 <<< pin)) < 2 ^ 16 :=
      Nat.or_lt_two_pow (h16 ▸ h) hshift
    simp only [Nat.mod_eq_of_lt (h16 ▸ hor)]
    rw [Nat.testBit_or, Nat.shiftLeft_eq, one_mul, Nat.testBit_two_pow_self]
    simp

/-- C6: re-initializing a pin that a first `init` call has already registered
is idempotent — the second call returns exactly the value an ISR-context read
of the pin would return, and it leaves the whole sampler state (registered-pin
bitset, cached values, conversion marker, and the count of one-time
configuration side effects) unchanged. -/
theorem ADCee.init_idem (raw raw2 : Int) (env : Nat → Int) (pin : Nat)
    (st : ADCee.ADCState) (hpin : pin < 16) (hmask : st.usedpins < 65536) :
    ADCee.init raw2 pin (ADCee.init raw pin st).2 =
      ((ADCee.read env pin true (ADCee.init raw pin st).2).1,
        (ADCee.init raw pin st).2) := by
  have hbit := ADCee.init_testBit raw pin st hpin hmask
  generalize (ADCee.init raw pin st).2 = st1 at hbit ⊢
  simp [ADCee.init, ADCee.read, hbit]

/-- Witness for C6: pin 3 initialized twice starting from the empty sampler
state. -/
theorem ADCee.init_idem_witness :
    (3 : Nat) < 16 ∧ (ADCee.ADCState.mk 0 (fun _ => 0) none 0).usedpins < 65536 ∧
    ADCee.init 7 3 (ADCee.init 5 3 (ADCee.ADCState.mk 0 (fun _ => 0) none 0)).2 =
      ((ADCee.read (fun _ => 0) 3 true
          (ADCee.init 5 3 (ADCee.ADCState.mk 0 (fun _ => 0) none 0)).2).1,
        (ADCee.init 5 3 (ADCee.ADCState.mk 0 (fun _ => 0) none 0)).2) :=
  ⟨by decide, by decide,
    ADCee.init_idem 5 7 (fun _ => 0) 3 _ (by decide) (by decide)⟩

/-- C7: an ISR-context read of a previously initialized pin only returns the
cached sample and leaves the sampler state — registered-pin bitset, cached
values, and the conversion-in-progress marker — entirely unchanged; in
particular it never starts a new conversion. -/
theorem ADCee.read_fromISR (env : Nat → Int) (pin : Nat) (st : ADCee.ADCState)
    (hreg : st.usedpins.testBit pin = true) :
    ADCee.read env pin true st = (st.analogvals pin, st) := by
  simp [ADCee.read]

/-- Witness for C7: pin 3 registered (mask 8 = bit 3). -/
theorem ADCee.read_fromISR_witness :
    (ADCee.ADCState.mk 8 (fun _ => 0) none 0).usedpins.testBit 3 = true ∧
    ADCee.read (fun _ => 1) 3 true (ADCee.ADCState.mk 8 (fun _ => 0) none 0) =
      ((ADCee.ADCState.mk 8 (fun _ => 0) none 0).analogvals 3,
        ADCee.ADCState.mk 8 (fun _ => 0) none 0) :=
  ⟨by decide, ADCee.read_fromISR (fun _ => 1) 3 _ (by decide)⟩

lemma ADCee.countPins_le_of_lt (k : Nat) :
    ∀ u : Nat, u < 2 ^ k → ADCee.countPins u ≤ k := by
  induction k with
  | zero =>
      intro u hu
      have hu0 : u = 0 := by simpa using hu
      subst hu0
      simp [ADCee.countPins]
  | succ k ih =>
      intro u hu
      match u with
      | 0 => simp [ADCee.countPins]
      | n + 1 =>
          rw [pow_succ] at hu
          have h1 : (n + 1) / 2 < 2 ^ k := by omega
          have h2 := ih ((n + 1) / 2) h1
          have h3 : (n + 1) % 2 < 2 := Nat.mod_lt _ (by norm_num)
          calc ADCee.countPins (n + 1)
              = (n + 1) % 2 + ADCee.countPins ((n + 1) / 2) := by
                rw [ADCee.countPins]
            _ ≤ k + 1 := by omega

/-- C10: because `usedpins` is a 16-bit value, in every state satisfying the
`uint16_t` bound at most 16 pins are registered at once, every set bit lies at
a position below 16, and `init` preserves the 16-bit bound. -/
theorem ADCee.usedpins_capacity (st : ADCee.ADCState) (h : st.usedpins < 65536) :
    ADCee.countPins st.usedpins ≤ 16 ∧
    (∀ i, st.usedpins.testBit i = true → i < 16) ∧
    ∀ raw pin, (ADCee.init raw pin st).2.usedpins < 65536 := by
  have h16 : (65536 : Nat) = 2 ^ 16 := by norm_num
  refine ⟨ADCee.countPins_le_of_lt 16 _ (h16 ▸ h), ?_, ?_⟩
  · intro i hi
    by_contra hge
    push_neg at hge
    have hlt : st.usedpins < 2 ^ i :=
      lt_of_lt_of_le (h16 ▸ h) (Nat.pow_le_pow_right (by norm_num) hge)
    rw [Nat.testBit_eq_false_of_lt hlt] at hi
    exact Bool.false_ne_true hi
  · intro raw pin
    exact ADCee.init_usedpins_lt raw pin st h

/-- Witness for C10 at a full mask (all 16 pins registered). -/
theorem ADCee.usedpins_capacity_witness :
    (ADCee.ADCState.mk 65535 (fun _ => 0) none 0).usedpins < 65536 ∧
    (ADCee.countPins (ADCee.ADCState.mk 65535 (fun _ => 0) none 0).usedpins ≤ 16 ∧
     (∀ i, (ADCee.ADCState.mk 65535 (fun _ => 0) none 0).usedpins.testBit i = true → i < 16) ∧
     ∀ raw pin,
       (ADCee.init raw pin (ADCee.ADCState.mk 65535 (fun _ => 0) none 0)).2.usedpins < 65536) :=
  ⟨by decide, ADCee.usedpins_capacity _ (by decide)⟩
